import Mathlib

/-!
Shallow embedding of the geometric element algebra of
`src/layoutparser/elements.py`: the three coordinate elements
(`Interval`, `Rectangle`, `Quadrilateral`), the numeric kernel routines,
their frame-transform operations (`condition_on` / `relative_to`), the
containment predicate (`is_in`), the edit operations
(`pad` / `shift` / `scale`) and the collection-level `filter_by`.

Numbers are modelled by the rationals: all the arithmetic performed by the
source (translation, determinants, padding, ranking, Gaussian elimination,
homogeneous division) is exact rational arithmetic, and the tolerance of
`np.isclose` in `Quadrilateral.__eq__` is modelled as exact equality.
Fallible operations (the assertion on 2-vector lengths in shift/scale,
matrix inversion inside the perspective transform) return `Option`.
-/

namespace LP

/-- The axis of an `Interval`; the source stores the strings x and y. -/
inductive Axis
  | x
  | y
deriving DecidableEq

/-- A 2D point: one row of a numpy 4x2 points array. -/
structure Pt where
  x : ℚ
  y : ℚ
deriving DecidableEq

/-- A 4x2 points array: the four corner points of an element, stored
clockwise from the top-left corner. -/
structure Points4 where
  p0 : Pt
  p1 : Pt
  p2 : Pt
  p3 : Pt
deriving DecidableEq

/-- Row access into the 4x2 points array. -/
def Points4.get (ps : Points4) : Fin 4 → Pt
  | ⟨0, _⟩ => ps.p0
  | ⟨1, _⟩ => ps.p1
  | ⟨2, _⟩ => ps.p2
  | ⟨3, _⟩ => ps.p3

/-- Build a 4x2 points array from a function on row indices. -/
def Points4.ofFn (f : Fin 4 → Pt) : Points4 :=
  ⟨f 0, f 1, f 2, f 3⟩

/-- Row-wise addition of two 4x2 arrays (numpy `+`). -/
def Points4.add (a b : Points4) : Points4 :=
  Points4.ofFn fun i => ⟨(a.get i).x + (b.get i).x, (a.get i).y + (b.get i).y⟩

/-- `np.maximum(points, 0)`: clamp every coordinate from below by 0. -/
def Points4.max0 (a : Points4) : Points4 :=
  Points4.ofFn fun i => ⟨max 0 (a.get i).x, max 0 (a.get i).y⟩

/-- Broadcast addition of a 2-vector to every row (numpy `points + [dx, dy]`). -/
def Points4.translate (a : Points4) (dx dy : ℚ) : Points4 :=
  Points4.ofFn fun i => ⟨(a.get i).x + dx, (a.get i).y + dy⟩

/-- Broadcast multiplication by a 2-vector (numpy `points * [sx, sy]`). -/
def Points4.scaleBy (a : Points4) (sx sy : ℚ) : Points4 :=
  Points4.ofFn fun i => ⟨(a.get i).x * sx, (a.get i).y * sy⟩

/-- The x column of the points array. -/
def Points4.xs (a : Points4) : Fin 4 → ℚ := fun i => (a.get i).x

/-- The y column of the points array. -/
def Points4.ys (a : Points4) : Fin 4 → ℚ := fun i => (a.get i).y

/-- All eight coordinates of the array are nonnegative. -/
def Points4.Nonneg (a : Points4) : Prop :=
  0 ≤ a.p0.x ∧ 0 ≤ a.p0.y ∧ 0 ≤ a.p1.x ∧ 0 ≤ a.p1.y ∧
  0 ≤ a.p2.x ∧ 0 ≤ a.p2.y ∧ 0 ≤ a.p3.x ∧ 0 ≤ a.p3.y

instance (a : Points4) : Decidable a.Nonneg :=
  inferInstanceAs (Decidable (_ ∧ _))

/-- Minimum of four rationals, mirroring a numpy column `min`. -/
def min4 (a b c d : ℚ) : ℚ := min (min (min a b) c) d

/-- Maximum of four rationals, mirroring a numpy column `max`. -/
def max4 (a b c d : ℚ) : ℚ := max (max (max a b) c) d

/-- `_cvt_coordinates_to_points`: top-left, top-right, bottom-right,
bottom-left corners of the box `(x_1, y_1, x_2, y_2)`. -/
def cvt_coordinates_to_points (x_1 y_1 x_2 y_2 : ℚ) : Points4 :=
  ⟨⟨x_1, y_1⟩, ⟨x_2, y_1⟩, ⟨x_2, y_2⟩, ⟨x_1, y_2⟩⟩

/-- `_cvt_points_to_coordinates`: the axis-aligned bounding box of the
four points, as `(x_1, y_1, x_2, y_2)`. -/
def cvt_points_to_coordinates (ps : Points4) : ℚ × ℚ × ℚ × ℚ :=
  (min4 ps.p0.x ps.p1.x ps.p2.x ps.p3.x,
   min4 ps.p0.y ps.p1.y ps.p2.y ps.p3.y,
   max4 ps.p0.x ps.p1.x ps.p2.x ps.p3.x,
   max4 ps.p0.y ps.p1.y ps.p2.y ps.p3.y)

/-- 2x2 determinant of the matrix with rows `a` and `b`
(`np.linalg.det([e1, e2])`). -/
def det2 (a b : Pt) : ℚ := a.x * b.y - a.y * b.x

/-- Pointwise difference of two points. -/
def ptSub (a b : Pt) : Pt := ⟨a.x - b.x, a.y - b.y⟩

/-- `_vertice_in_polygon`: shift the polygon points so that `v` is the
origin, append the first shifted point at the end, and require every
2x2 determinant of consecutive shifted points to be nonnegative. -/
def vertice_in_polygon (v : Pt) (poly : Points4) : Bool :=
  let q0 := ptSub poly.p0 v
  let q1 := ptSub poly.p1 v
  let q2 := ptSub poly.p2 v
  let q3 := ptSub poly.p3 v
  decide (0 ≤ det2 q0 q1) && decide (0 ≤ det2 q1 q2) &&
  decide (0 ≤ det2 q2 q3) && decide (0 ≤ det2 q3 q0)

/-- `_polygon_area`: the Shoelace formula
`0.5 * |dot xs (roll ys 1) - dot ys (roll xs 1)|`. -/
def polygon_area (ps : Points4) : ℚ :=
  (1/2) * |(ps.p0.x * ps.p3.y + ps.p1.x * ps.p0.y + ps.p2.x * ps.p1.y + ps.p3.x * ps.p2.y)
         - (ps.p0.y * ps.p3.x + ps.p1.y * ps.p0.x + ps.p2.y * ps.p1.x + ps.p3.y * ps.p2.x)|

/-- The half-plane test for one directed polygon edge `a → b` in screen
coordinates (y axis pointing down): for a convex polygon listed in visually
clockwise order, a point `v` is inside or on the polygon exactly when it is
on the nonnegative side of every edge. -/
def halfplane (a b v : Pt) : Prop := 0 ≤ det2 (ptSub b a) (ptSub v a)

instance (a b v : Pt) : Decidable (halfplane a b v) :=
  inferInstanceAs (Decidable (0 ≤ _))

/-- A point lies inside or on the boundary of the (convex, clockwise in
screen coordinates) polygon: it satisfies the half-plane condition of all
four directed edges. -/
def inside_or_on (v : Pt) (poly : Points4) : Prop :=
  halfplane poly.p0 poly.p1 v ∧ halfplane poly.p1 poly.p2 v ∧
  halfplane poly.p2 poly.p3 v ∧ halfplane poly.p3 poly.p0 v

instance (v : Pt) (poly : Points4) : Decidable (inside_or_on v poly) :=
  inferInstanceAs (Decidable (_ ∧ _))

/-- The polygon is convex and listed in visually clockwise order in screen
coordinates (y pointing down): every pair of consecutive directed edges
turns with a nonnegative cross product. -/
def clockwise_convex (poly : Points4) : Prop :=
  0 ≤ det2 (ptSub poly.p1 poly.p0) (ptSub poly.p2 poly.p1) ∧
  0 ≤ det2 (ptSub poly.p2 poly.p1) (ptSub poly.p3 poly.p2) ∧
  0 ≤ det2 (ptSub poly.p3 poly.p2) (ptSub poly.p0 poly.p3) ∧
  0 ≤ det2 (ptSub poly.p0 poly.p3) (ptSub poly.p1 poly.p0)

instance (poly : Points4) : Decidable (clockwise_convex poly) :=
  inferInstanceAs (Decidable (_ ∧ _))

/-- The strict order used by a stable `argsort` on a column: `j` comes
before `i` when its value is smaller, or on ties when its index is smaller.
(numpy sorts arrays of fewer than 17 elements by insertion sort, which is
stable, so ties are broken by index.) -/
def rkRel (v : Fin 4 → ℚ) (j i : Fin 4) : Prop :=
  v j < v i ∨ (v j = v i ∧ j < i)

instance (v : Fin 4 → ℚ) (j i : Fin 4) : Decidable (rkRel v j i) :=
  inferInstanceAs (Decidable (_ ∨ _))

/-- `argsort(column).argsort()`: the rank of entry `i` in its column, that
is the number of entries that a stable sort places before it. -/
def rk (v : Fin 4 → ℚ) (i : Fin 4) : ℕ :=
  (Finset.univ.filter (fun j => rkRel v j i)).card

/-- An `Interval`: a 1D span `[start, end]` on one axis of a canvas.
The source constructor asserts `start ≤ end`; the fields are otherwise
plain data.  `canvas_height` and `canvas_width` default to 0 in the
source constructor and are written explicitly here. -/
structure Interval where
  start : ℚ
  end_ : ℚ
  axis : Axis
  canvas_height : ℚ
  canvas_width : ℚ
deriving DecidableEq

/-- A `Rectangle`: an axis-aligned box given by two corner points. -/
structure Rectangle where
  x_1 : ℚ
  y_1 : ℚ
  x_2 : ℚ
  y_2 : ℚ
deriving DecidableEq

/-- A `Quadrilateral`: a 4x2 points array plus the optional user-supplied
logical height and width (the source fields are named with a leading
underscore). -/
structure Quadrilateral where
  points : Points4
  height' : Option ℚ
  width' : Option ℚ
deriving DecidableEq

/-- The closed union of the three coordinate element kinds. -/
inductive Geometry
  | itv (i : Interval)
  | rect (r : Rectangle)
  | quad (q : Quadrilateral)
deriving DecidableEq

/-- `Interval.height`. -/
def Interval.height (i : Interval) : ℚ :=
  match i.axis with
  | .x => i.canvas_height
  | .y => i.end_ - i.start

/-- `Interval.width`. -/
def Interval.width (i : Interval) : ℚ :=
  match i.axis with
  | .x => i.end_ - i.start
  | .y => i.canvas_width

/-- `Interval.coordinates`: the interval read as a rectangle on its canvas. -/
def Interval.coordinates (i : Interval) : ℚ × ℚ × ℚ × ℚ :=
  match i.axis with
  | .x => (i.start, 0, i.end_, i.canvas_height)
  | .y => (0, i.start, i.canvas_width, i.end_)

/-- `Interval.points`. -/
def Interval.points (i : Interval) : Points4 :=
  match i.coordinates with
  | (x_1, y_1, x_2, y_2) => cvt_coordinates_to_points x_1 y_1 x_2 y_2

/-- `Interval.center`: the midpoint of `start` and `end`. -/
def Interval.center (i : Interval) : ℚ := (i.start + i.end_) / 2

/-- `Rectangle.height`. -/
def Rectangle.height (r : Rectangle) : ℚ := r.y_2 - r.y_1

/-- `Rectangle.width`. -/
def Rectangle.width (r : Rectangle) : ℚ := r.x_2 - r.x_1

/-- `Rectangle.points`. -/
def Rectangle.points (r : Rectangle) : Points4 :=
  cvt_coordinates_to_points r.x_1 r.y_1 r.x_2 r.y_2

/-- The x component of `Rectangle.center`. -/
def Rectangle.centerX (r : Rectangle) : ℚ := (r.x_1 + r.x_2) / 2

/-- The y component of `Rectangle.center`. -/
def Rectangle.centerY (r : Rectangle) : ℚ := (r.y_1 + r.y_2) / 2

/-- `Quadrilateral.height`: the user-supplied height if present, otherwise
the height of the circumscribed rectangle. -/
def Quadrilateral.height (q : Quadrilateral) : ℚ :=
  match q.height' with
  | some h => h
  | none => max4 q.points.p0.y q.points.p1.y q.points.p2.y q.points.p3.y -
            min4 q.points.p0.y q.points.p1.y q.points.p2.y q.points.p3.y

/-- `Quadrilateral.width`: the user-supplied width if present, otherwise
the width of the circumscribed rectangle. -/
def Quadrilateral.width (q : Quadrilateral) : ℚ :=
  match q.width' with
  | some w => w
  | none => max4 q.points.p0.x q.points.p1.x q.points.p2.x q.points.p3.x -
            min4 q.points.p0.x q.points.p1.x q.points.p2.x q.points.p3.x

/-- `Quadrilateral.coordinates`: the circumscribed rectangle. -/
def Quadrilateral.coordinates (q : Quadrilateral) : ℚ × ℚ × ℚ × ℚ :=
  cvt_points_to_coordinates q.points

/-- The x component of `Quadrilateral.center` (the mean of the points). -/
def Quadrilateral.centerX (q : Quadrilateral) : ℚ :=
  (q.points.p0.x + q.points.p1.x + q.points.p2.x + q.points.p3.x) / 4

/-- The y component of `Quadrilateral.center`. -/
def Quadrilateral.centerY (q : Quadrilateral) : ℚ :=
  (q.points.p0.y + q.points.p1.y + q.points.p2.y + q.points.p3.y) / 4

/-- `Quadrilateral.map_to_points_ordering`: each point receives the map
value selected by the rank of its x (resp. y) coordinate within the x
(resp. y) column; the two columns are ranked independently. -/
def Quadrilateral.map_to_points_ordering (q : Quadrilateral)
    (x_map y_map : ℕ → ℚ) : Points4 :=
  Points4.ofFn fun i => ⟨x_map (rk q.points.xs i), y_map (rk q.points.ys i)⟩

/-- `Quadrilateral.mapped_rectangle_points`: the two lowest-ranked x
coordinates are sent to 0, the two highest to `width`; same for y with
`height`. -/
def Quadrilateral.mapped_rectangle_points (q : Quadrilateral) : Points4 :=
  q.map_to_points_ordering (fun k => if k ≤ 1 then 0 else q.width)
    (fun k => if k ≤ 1 then 0 else q.height)

/-- Geometry-level `height` (used by `put_on_canvas`). -/
def Geometry.height : Geometry → ℚ
  | .itv i => i.height
  | .rect r => r.height
  | .quad q => q.height

/-- Geometry-level `width`. -/
def Geometry.width : Geometry → ℚ
  | .itv i => i.width
  | .rect r => r.width
  | .quad q => q.width

/-- Geometry-level `coordinates` (the bounding box). -/
def Geometry.coordinates : Geometry → ℚ × ℚ × ℚ × ℚ
  | .itv i => i.coordinates
  | .rect r => (r.x_1, r.y_1, r.x_2, r.y_2)
  | .quad q => q.coordinates

/-- `Interval.put_on_canvas` with a coordinate element as canvas: set the
canvas height and width from the other element. -/
def Interval.put_on_canvas (i : Interval) (canvas : Geometry) : Interval :=
  { i with canvas_height := canvas.height, canvas_width := canvas.width }

/-- `Interval.to_rectangle`. -/
def Interval.to_rectangle (i : Interval) : Rectangle :=
  match i.coordinates with
  | (x_1, y_1, x_2, y_2) => ⟨x_1, y_1, x_2, y_2⟩

/-- `Interval.to_quadrilateral`: no explicit height or width are passed. -/
def Interval.to_quadrilateral (i : Interval) : Quadrilateral :=
  ⟨i.points, none, none⟩

/-- `Rectangle.to_interval(axis)`: project onto one axis; the canvas sizes
default to 0. -/
def Rectangle.to_interval (r : Rectangle) (axis : Axis) : Interval :=
  match axis with
  | .x => ⟨r.x_1, r.x_2, .x, 0, 0⟩
  | .y => ⟨r.y_1, r.y_2, .y, 0, 0⟩

/-- `Interval.pad`: only the pair of sides matching the interval's axis is
applied (the orthogonal pair only triggers a warning); `safe_mode` clamps
the padded `start` at 0. -/
def Interval.pad (i : Interval) (left right top bottom : ℚ)
    (safe_mode : Bool) : Interval :=
  let se : ℚ × ℚ :=
    match i.axis with
    | .x => (i.start - left, i.end_ + right)
    | .y => (i.start - top, i.end_ + bottom)
  { i with start := if safe_mode then max 0 se.1 else se.1, end_ := se.2 }

/-- `Rectangle.pad`; `safe_mode` clamps only `x_1` and `y_1` at 0. -/
def Rectangle.pad (r : Rectangle) (left right top bottom : ℚ)
    (safe_mode : Bool) : Rectangle :=
  let x_1 := r.x_1 - left
  let y_1 := r.y_1 - top
  ⟨if safe_mode then max 0 x_1 else x_1,
   if safe_mode then max 0 y_1 else y_1,
   r.x_2 + right, r.y_2 + bottom⟩

/-- `Quadrilateral.pad`: build a per-vertex delta matrix through the
rank-based vertex ordering, add it to the points, and in `safe_mode` clamp
every coordinate at 0.  The optional height and width are preserved. -/
def Quadrilateral.pad (q : Quadrilateral) (left right top bottom : ℚ)
    (safe_mode : Bool) : Quadrilateral :=
  let padding := q.map_to_points_ordering
    (fun k => if k ≤ 1 then -left else right)
    (fun k => if k ≤ 1 then -top else bottom)
  let pts := q.points.add padding
  { q with points := if safe_mode then pts.max0 else pts }

/-- The argument of `shift` and `scale`: a scalar or an iterable of
rationals (the source accepts any iterable and asserts on its length). -/
inductive Arg
  | scalar (v : ℚ)
  | vec (l : List ℚ)

/-- `Interval.shift`: a scalar shifts along the interval's own axis; an
iterable is indexed at 0 (x axis) or 1 (y axis) with a warning, which
raises an index error when the entry does not exist. -/
def Interval.shift (i : Interval) (d : Arg) : Option Interval :=
  match d with
  | .scalar s => some { i with start := i.start + s, end_ := i.end_ + s }
  | .vec l =>
    match i.axis, l with
    | .x, d0 :: _ => some { i with start := i.start + d0, end_ := i.end_ + d0 }
    | .y, _ :: d1 :: _ => some { i with start := i.start + d1, end_ := i.end_ + d1 }
    | _, _ => none

/-- `Interval.scale`: as `Interval.shift`, multiplicatively. -/
def Interval.scale (i : Interval) (d : Arg) : Option Interval :=
  match d with
  | .scalar s => some { i with start := i.start * s, end_ := i.end_ * s }
  | .vec l =>
    match i.axis, l with
    | .x, d0 :: _ => some { i with start := i.start * d0, end_ := i.end_ * d0 }
    | .y, _ :: d1 :: _ => some { i with start := i.start * d1, end_ := i.end_ * d1 }
    | _, _ => none

/-- `Rectangle.shift`: an iterable argument must have exactly 2 entries
(`assert len(shift_distance) == 2`), the x entry moving x coordinates and
the y entry moving y coordinates. -/
def Rectangle.shift (r : Rectangle) (d : Arg) : Option Rectangle :=
  match d with
  | .scalar s => some ⟨r.x_1 + s, r.y_1 + s, r.x_2 + s, r.y_2 + s⟩
  | .vec [dx, dy] => some ⟨r.x_1 + dx, r.y_1 + dy, r.x_2 + dx, r.y_2 + dy⟩
  | .vec _ => none

/-- `Rectangle.scale`: same validation as `Rectangle.shift`. -/
def Rectangle.scale (r : Rectangle) (d : Arg) : Option Rectangle :=
  match d with
  | .scalar s => some ⟨r.x_1 * s, r.y_1 * s, r.x_2 * s, r.y_2 * s⟩
  | .vec [sx, sy] => some ⟨r.x_1 * sx, r.y_1 * sy, r.x_2 * sx, r.y_2 * sy⟩
  | .vec _ => none

/-- `Quadrilateral.shift`: same validation; the 2-vector is broadcast over
the rows of the points array, and the optional height and width are kept. -/
def Quadrilateral.shift (q : Quadrilateral) (d : Arg) : Option Quadrilateral :=
  match d with
  | .scalar s => some { q with points := q.points.translate s s }
  | .vec [dx, dy] => some { q with points := q.points.translate dx dy }
  | .vec _ => none

/-- `Quadrilateral.scale`: same validation, multiplicatively. -/
def Quadrilateral.scale (q : Quadrilateral) (d : Arg) : Option Quadrilateral :=
  match d with
  | .scalar s => some { q with points := q.points.scaleBy s s }
  | .vec [sx, sy] => some { q with points := q.points.scaleBy sx sy }
  | .vec _ => none

/-- A 3x3 matrix of rationals. -/
structure Mat3 where
  m00 : ℚ
  m01 : ℚ
  m02 : ℚ
  m10 : ℚ
  m11 : ℚ
  m12 : ℚ
  m20 : ℚ
  m21 : ℚ
  m22 : ℚ
deriving DecidableEq

/-- Determinant of a 3x3 matrix. -/
def Mat3.det (M : Mat3) : ℚ :=
  M.m00 * (M.m11 * M.m22 - M.m12 * M.m21)
  - M.m01 * (M.m10 * M.m22 - M.m12 * M.m20)
  + M.m02 * (M.m10 * M.m21 - M.m11 * M.m20)

/-- `np.linalg.inv` on a 3x3 matrix: the adjugate divided by the
determinant; raises (here: `none`) when the matrix is singular. -/
def Mat3.inv (M : Mat3) : Option Mat3 :=
  if M.det = 0 then none
  else
    let d := M.det
    some ⟨(M.m11 * M.m22 - M.m12 * M.m21) / d,
          (M.m02 * M.m21 - M.m01 * M.m22) / d,
          (M.m01 * M.m12 - M.m02 * M.m11) / d,
          (M.m12 * M.m20 - M.m10 * M.m22) / d,
          (M.m00 * M.m22 - M.m02 * M.m20) / d,
          (M.m02 * M.m10 - M.m00 * M.m12) / d,
          (M.m10 * M.m21 - M.m11 * M.m20) / d,
          (M.m01 * M.m20 - M.m00 * M.m21) / d,
          (M.m00 * M.m11 - M.m01 * M.m10) / d⟩

/-- 3x3 matrix product (row times column). -/
def Mat3.mul (A B : Mat3) : Mat3 :=
  ⟨A.m00 * B.m00 + A.m01 * B.m10 + A.m02 * B.m20,
   A.m00 * B.m01 + A.m01 * B.m11 + A.m02 * B.m21,
   A.m00 * B.m02 + A.m01 * B.m12 + A.m02 * B.m22,
   A.m10 * B.m00 + A.m11 * B.m10 + A.m12 * B.m20,
   A.m10 * B.m01 + A.m11 * B.m11 + A.m12 * B.m21,
   A.m10 * B.m02 + A.m11 * B.m12 + A.m12 * B.m22,
   A.m20 * B.m00 + A.m21 * B.m10 + A.m22 * B.m20,
   A.m20 * B.m01 + A.m21 * B.m11 + A.m22 * B.m21,
   A.m20 * B.m02 + A.m21 * B.m12 + A.m22 * B.m22⟩

/-- The 3x3 identity matrix. -/
def Mat3.idMat : Mat3 := ⟨1, 0, 0, 0, 1, 0, 0, 0, 1⟩

/-- Apply the matrix to one point in homogeneous coordinates and divide by
the homogeneous component. -/
def Mat3.applyPt (M : Mat3) (p : Pt) : Pt :=
  let z := M.m20 * p.x + M.m21 * p.y + M.m22
  ⟨(M.m00 * p.x + M.m01 * p.y + M.m02) / z,
   (M.m10 * p.x + M.m11 * p.y + M.m12) / z⟩

/-- `_perspective_transformation`: map all four points through `M` (or
through `M⁻¹` when `is_inv`, failing if `M` is singular) in homogeneous
coordinates, dividing each image by its homogeneous component. -/
def perspective_transformation (M : Mat3) (ps : Points4) (is_inv : Bool) :
    Option Points4 :=
  if is_inv then
    (M.inv).map fun Mi =>
      ⟨Mi.applyPt ps.p0, Mi.applyPt ps.p1, Mi.applyPt ps.p2, Mi.applyPt ps.p3⟩
  else
    some ⟨M.applyPt ps.p0, M.applyPt ps.p1, M.applyPt ps.p2, M.applyPt ps.p3⟩

/-- Subtract a multiple of the pivot row from a row and drop the leading
column (one step of Gaussian elimination on augmented rows). -/
def elimRow (piv : List ℚ) (p : ℚ) (row : List ℚ) : List ℚ :=
  List.zipWith (fun a b => a - (row.headD 0 / p) * b) row.tail piv.tail

/-- Gaussian elimination with back substitution on augmented rows
(`n` rows of length `n + 1`); `none` when the system is singular. -/
def gaussSolve : ℕ → List (List ℚ) → Option (List ℚ)
  | _, [] => some []
  | 0, _ => none
  | Nat.succ fuel, rows =>
    match rows.find? (fun row => decide (row.headD 0 ≠ 0)) with
    | none => none
    | some piv =>
      let p := piv.headD 0
      let rest := (rows.erase piv).map (elimRow piv p)
      match gaussSolve fuel rest with
      | none => none
      | some xs =>
        let c := piv.tail
        let rhs := c.getLastD 0
        let coeffs := c.dropLast
        some (((rhs - (List.zipWith (fun a b => a * b) coeffs xs).sum) / p) :: xs)

/-- Modelled from the spec: `cv2.getPerspectiveTransform` (an external
library routine, not part of src) computes the standard 4-point
correspondence planar homography sending `src` to `dst` — the 3x3 matrix
with bottom-right entry 1 whose eight remaining coefficients solve the
usual linear system; `none` when that system is singular. -/
def getPerspectiveTransform (src dst : Points4) : Option Mat3 :=
  let row1 := fun (s d : Pt) =>
    [s.x, s.y, 1, 0, 0, 0, -(s.x * d.x), -(s.y * d.x), d.x]
  let row2 := fun (s d : Pt) =>
    [0, 0, 0, s.x, s.y, 1, -(s.x * d.y), -(s.y * d.y), d.y]
  let rows := [row1 src.p0 dst.p0, row2 src.p0 dst.p0,
               row1 src.p1 dst.p1, row2 src.p1 dst.p1,
               row1 src.p2 dst.p2, row2 src.p2 dst.p2,
               row1 src.p3 dst.p3, row2 src.p3 dst.p3]
  match gaussSolve 8 rows with
  | some [c0, c1, c2, c3, c4, c5, c6, c7] => some ⟨c0, c1, c2, c3, c4, c5, c6, c7, 1⟩
  | _ => none

/-- `Quadrilateral.perspective_matrix`: the homography sending the
quadrilateral's points to its rank-mapped rectangle points. -/
def Quadrilateral.perspective_matrix (q : Quadrilateral) : Option Mat3 :=
  getPerspectiveTransform q.points q.mapped_rectangle_points

/-- `Rectangle.condition_on`: translate by the other's anchor for Interval
and Rectangle others; for a Quadrilateral other, map the corner points
through the inverse of its perspective matrix and return a Quadrilateral
that carries this rectangle's height and width. -/
def Rectangle.condition_on (r : Rectangle) (other : Geometry) : Option Geometry :=
  match other with
  | .itv o =>
    let dxy : ℚ × ℚ := match o.axis with | .x => (o.start, 0) | .y => (0, o.start)
    some (.rect ⟨r.x_1 + dxy.1, r.y_1 + dxy.2, r.x_2 + dxy.1, r.y_2 + dxy.2⟩)
  | .rect o =>
    some (.rect ⟨r.x_1 + o.x_1, r.y_1 + o.y_1, r.x_2 + o.x_1, r.y_2 + o.y_1⟩)
  | .quad o =>
    match o.perspective_matrix with
    | none => none
    | some M =>
      match perspective_transformation M r.points true with
      | none => none
      | some ps => some (.quad ⟨ps, some r.height, some r.width⟩)

/-- `Rectangle.relative_to`: the inverse frame move of
`Rectangle.condition_on`. -/
def Rectangle.relative_to (r : Rectangle) (other : Geometry) : Option Geometry :=
  match other with
  | .itv o =>
    let dxy : ℚ × ℚ := match o.axis with | .x => (o.start, 0) | .y => (0, o.start)
    some (.rect ⟨r.x_1 - dxy.1, r.y_1 - dxy.2, r.x_2 - dxy.1, r.y_2 - dxy.2⟩)
  | .rect o =>
    some (.rect ⟨r.x_1 - o.x_1, r.y_1 - o.y_1, r.x_2 - o.x_1, r.y_2 - o.y_1⟩)
  | .quad o =>
    match o.perspective_matrix with
    | none => none
    | some M =>
      match perspective_transformation M r.points false with
      | none => none
      | some ps => some (.quad ⟨ps, some r.height, some r.width⟩)

/-- `Quadrilateral.condition_on`: shift for Interval and Rectangle others;
apply the inverse perspective matrix for a Quadrilateral other, keeping
this quadrilateral's own computed height and width. -/
def Quadrilateral.condition_on (q : Quadrilateral) (other : Geometry) :
    Option Geometry :=
  match other with
  | .itv o =>
    (match o.axis with
     | .x => q.shift (.vec [o.start, 0])
     | .y => q.shift (.vec [0, o.start])).map .quad
  | .rect o => (q.shift (.vec [o.x_1, o.y_1])).map .quad
  | .quad o =>
    match o.perspective_matrix with
    | none => none
    | some M =>
      match perspective_transformation M q.points true with
      | none => none
      | some ps => some (.quad ⟨ps, some q.height, some q.width⟩)

/-- `Quadrilateral.relative_to`. -/
def Quadrilateral.relative_to (q : Quadrilateral) (other : Geometry) :
    Option Geometry :=
  match other with
  | .itv o =>
    (match o.axis with
     | .x => q.shift (.vec [-o.start, 0])
     | .y => q.shift (.vec [0, -o.start])).map .quad
  | .rect o => (q.shift (.vec [-o.x_1, -o.y_1])).map .quad
  | .quad o =>
    match o.perspective_matrix with
    | none => none
    | some M =>
      match perspective_transformation M q.points false with
      | none => none
      | some ps => some (.quad ⟨ps, some q.height, some q.width⟩)

/-- `Interval.condition_on`: a same-axis Interval other shifts by
`other.start`, rebuilding the interval through the constructor (which
resets the canvas sizes to their defaults); a different-axis Interval
other returns an unchanged copy; Rectangle and Quadrilateral others bind
the interval to the other's canvas, promote it, and delegate. -/
def Interval.condition_on (i : Interval) (other : Geometry) : Option Geometry :=
  match other with
  | .itv o =>
    if o.axis = i.axis then
      some (.itv ⟨i.start + o.start, i.end_ + o.start, i.axis, 0, 0⟩)
    else
      some (.itv i)
  | .rect o => ((i.put_on_canvas (.rect o)).to_rectangle).condition_on (.rect o)
  | .quad o => ((i.put_on_canvas (.quad o)).to_quadrilateral).condition_on (.quad o)

/-- `Interval.relative_to`. -/
def Interval.relative_to (i : Interval) (other : Geometry) : Option Geometry :=
  match other with
  | .itv o =>
    if o.axis = i.axis then
      some (.itv ⟨i.start - o.start, i.end_ - o.start, i.axis, 0, 0⟩)
    else
      some (.itv i)
  | .rect o => ((i.put_on_canvas (.rect o)).to_rectangle).relative_to (.rect o)
  | .quad o => ((i.put_on_canvas (.quad o)).to_quadrilateral).relative_to (.quad o)

/-- Dispatch of `condition_on` over the element kinds. -/
def Geometry.condition_on : Geometry → Geometry → Option Geometry
  | .itv i, other => i.condition_on other
  | .rect r, other => r.condition_on other
  | .quad q, other => q.condition_on other

/-- Dispatch of `relative_to` over the element kinds. -/
def Geometry.relative_to : Geometry → Geometry → Option Geometry
  | .itv i, other => i.relative_to other
  | .rect r, other => r.relative_to other
  | .quad q, other => q.relative_to other

/-- A `soft_margin` dictionary: the four keyword paddings, absent keys
meaning 0. -/
structure SoftMargin where
  left : ℚ
  right : ℚ
  top : ℚ
  bottom : ℚ
deriving DecidableEq

/-- The empty `soft_margin` dictionary. -/
def emptySM : SoftMargin := ⟨0, 0, 0, 0⟩

/-- Geometry-level `pad` dispatch. -/
def Geometry.pad (g : Geometry) (left right top bottom : ℚ)
    (safe_mode : Bool) : Geometry :=
  match g with
  | .itv i => .itv (i.pad left right top bottom safe_mode)
  | .rect r => .rect (r.pad left right top bottom safe_mode)
  | .quad q => .quad (q.pad left right top bottom safe_mode)

/-- `Interval.is_in`, after the other element has been padded by the soft
margin (with the default `safe_mode=True`). -/
def Interval.is_in_padded (i : Interval) (o : Geometry) (center : Bool) : Bool :=
  match o with
  | .itv o =>
    if i.axis ≠ o.axis then false
    else if center then decide (o.start ≤ i.center ∧ i.center ≤ o.end_)
    else decide (o.start ≤ i.start ∧ i.start ≤ i.end_ ∧ i.end_ ≤ o.end_)
  | _ =>
    match o.coordinates with
    | (x_1, y_1, x_2, y_2) =>
      if center then
        match i.axis with
        | .x => decide (x_1 ≤ i.center ∧ i.center ≤ x_2)
        | .y => decide (y_1 ≤ i.center ∧ i.center ≤ y_2)
      else
        match i.axis with
        | .x => decide (x_1 ≤ i.start ∧ i.start ≤ i.end_ ∧ i.end_ ≤ x_2)
        | .y => decide (y_1 ≤ i.start ∧ i.start ≤ i.end_ ∧ i.end_ ≤ y_2)

/-- The Interval branch of `Rectangle.is_in`, after padding. -/
def Rectangle.is_in_padded_interval (r : Rectangle) (o : Interval)
    (center : Bool) : Bool :=
  if center then
    let c := match o.axis with | .x => r.centerX | .y => r.centerY
    decide (o.start ≤ c ∧ c ≤ o.end_)
  else
    let se : ℚ × ℚ := match o.axis with | .x => (r.x_1, r.x_2) | .y => (r.y_1, r.y_2)
    decide (o.start ≤ se.1 ∧ se.1 ≤ se.2 ∧ se.2 ≤ o.end_)

/-- `Rectangle.is_in`, after padding.  The Rectangle case re-enters
`is_in` on the two projected intervals with an empty soft margin, which
pads them once more (with `safe_mode=True`); that inner padding is
inlined here. -/
def Rectangle.is_in_padded (r : Rectangle) (o : Geometry) (center : Bool) : Bool :=
  match o with
  | .itv o => r.is_in_padded_interval o center
  | .rect o =>
    r.is_in_padded_interval ((o.to_interval .x).pad 0 0 0 0 true) center &&
    r.is_in_padded_interval ((o.to_interval .y).pad 0 0 0 0 true) center
  | .quad o =>
    if center then vertice_in_polygon ⟨r.centerX, r.centerY⟩ o.points
    else
      vertice_in_polygon r.points.p0 o.points &&
      vertice_in_polygon r.points.p1 o.points &&
      vertice_in_polygon r.points.p2 o.points &&
      vertice_in_polygon r.points.p3 o.points

/-- The Interval branch of `Quadrilateral.is_in`, after padding; the span
is read from the circumscribed rectangle. -/
def Quadrilateral.is_in_padded_interval (q : Quadrilateral) (o : Interval)
    (center : Bool) : Bool :=
  match q.coordinates with
  | (x_1, y_1, x_2, y_2) =>
    if center then
      let c := match o.axis with | .x => q.centerX | .y => q.centerY
      decide (o.start ≤ c ∧ c ≤ o.end_)
    else
      let se : ℚ × ℚ := match o.axis with | .x => (x_1, x_2) | .y => (y_1, y_2)
      decide (o.start ≤ se.1 ∧ se.1 ≤ se.2 ∧ se.2 ≤ o.end_)

/-- `Quadrilateral.is_in`, after padding (same shape as the Rectangle
version, on the 4-point representation). -/
def Quadrilateral.is_in_padded (q : Quadrilateral) (o : Geometry)
    (center : Bool) : Bool :=
  match o with
  | .itv o => q.is_in_padded_interval o center
  | .rect o =>
    q.is_in_padded_interval ((o.to_interval .x).pad 0 0 0 0 true) center &&
    q.is_in_padded_interval ((o.to_interval .y).pad 0 0 0 0 true) center
  | .quad o =>
    if center then vertice_in_polygon ⟨q.centerX, q.centerY⟩ o.points
    else
      vertice_in_polygon q.points.p0 o.points &&
      vertice_in_polygon q.points.p1 o.points &&
      vertice_in_polygon q.points.p2 o.points &&
      vertice_in_polygon q.points.p3 o.points

/-- `is_in(other, soft_margin, center)`: pad the other element by the soft
margin (the source calls `other.pad(**soft_margin)`, whose `safe_mode`
defaults to `True`), then run the kind-specific containment test. -/
def Geometry.is_in (g other : Geometry) (sm : SoftMargin) (center : Bool) : Bool :=
  let o := other.pad sm.left sm.right sm.top sm.bottom true
  match g with
  | .itv i => i.is_in_padded o center
  | .rect r => r.is_in_padded o center
  | .quad q => q.is_in_padded o center

/-- `Layout.filter_by`: the list comprehension
`[ele for ele in self if ele.is_in(other, ...)]`. -/
def filter_by : List Geometry → Geometry → SoftMargin → Bool → List Geometry
  | [], _, _, _ => []
  | e :: rest, other, sm, center =>
    if e.is_in other sm center then e :: filter_by rest other sm center
    else filter_by rest other sm center

/-- The source's `==` between coordinate elements:
`BaseLayoutElement.__eq__` requires the same class and equal fields, and
`Quadrilateral.__eq__` overrides it to require the same class and
pointwise-close points only (`np.isclose(...).all()`, modelled exactly). -/
def Geometry.pyEq : Geometry → Geometry → Bool
  | .itv a, .itv b => decide (a = b)
  | .rect a, .rect b => decide (a = b)
  | .quad a, .quad b => decide (a.points = b.points)
  | _, _ => false

/-- `condition_on` followed by `relative_to` against the same other
element (the round trip of the frame-transform pair). -/
def roundTrip (g other : Geometry) : Option Geometry :=
  (g.condition_on other).bind fun h => h.relative_to other

/-! ### Helper lemmas -/

theorem Points4.get_ofFn (f : Fin 4 → Pt) : (Points4.ofFn f).get = f := by
  funext i
  fin_cases i <;> rfl

theorem Points4.ext_get {a b : Points4} (h : ∀ i, a.get i = b.get i) : a = b := by
  cases a
  cases b
  simp only [Points4.mk.injEq]
  exact ⟨h 0, h 1, h 2, h 3⟩

theorem filter_by_eq_filter (L : List Geometry) (other : Geometry)
    (sm : SoftMargin) (center : Bool) :
    filter_by L other sm center = L.filter (fun e => e.is_in other sm center) := by
  induction L with
  | nil => rfl
  | cons a t ih => simp [filter_by, List.filter_cons, ih]

theorem ptExt {a b : Pt} (hx : a.x = b.x) (hy : a.y = b.y) : a = b := by
  cases a
  cases b
  simp_all

theorem quadExt {a b : Quadrilateral} (hp : a.points = b.points)
    (hh : a.height' = b.height') (hw : a.width' = b.width') : a = b := by
  cases a
  cases b
  simp_all

theorem Points4.translate_get (ps : Points4) (dx dy : ℚ) (i : Fin 4) :
    (ps.translate dx dy).get i = ⟨(ps.get i).x + dx, (ps.get i).y + dy⟩ := by
  simp [Points4.translate, Points4.get_ofFn]

theorem Points4.translate_translate_cancel (ps : Points4) (dx dy : ℚ) :
    (ps.translate dx dy).translate (-dx) (-dy) = ps := by
  apply Points4.ext_get
  intro i
  apply ptExt <;> simp [Points4.translate_get]

theorem Interval.pad_empty_margin (b : Interval) :
    b.pad 0 0 0 0 true = { b with start := max 0 b.start } := by
  cases hax : b.axis <;> simp [Interval.pad, hax]

theorem rkRel_irrefl (v : Fin 4 → ℚ) (i : Fin 4) : ¬ rkRel v i i := by
  rintro (h | ⟨-, h⟩)
  · exact lt_irrefl _ h
  · exact lt_irrefl _ h

theorem rkRel_trans {v : Fin 4 → ℚ} {k j i : Fin 4}
    (h1 : rkRel v k j) (h2 : rkRel v j i) : rkRel v k i := by
  rcases h1 with h1 | ⟨e1, l1⟩ <;> rcases h2 with h2 | ⟨e2, l2⟩
  · exact Or.inl (h1.trans h2)
  · exact Or.inl (h1.trans_eq e2)
  · exact Or.inl (e1.trans_lt h2)
  · exact Or.inr ⟨e1.trans e2, l1.trans l2⟩

theorem rkRel_total {v : Fin 4 → ℚ} {j i : Fin 4} (h : j ≠ i) :
    rkRel v j i ∨ rkRel v i j := by
  rcases lt_trichotomy (v j) (v i) with h1 | h1 | h1
  · exact Or.inl (Or.inl h1)
  · rcases lt_or_gt_of_ne h with h2 | h2
    · exact Or.inl (Or.inr ⟨h1, h2⟩)
    · exact Or.inr (Or.inr ⟨h1.symm, h2⟩)
  · exact Or.inr (Or.inl h1)

theorem rk_lt_of_rkRel {v : Fin 4 → ℚ} {j i : Fin 4} (h : rkRel v j i) :
    rk v j < rk v i := by
  have hsub : Finset.univ.filter (fun k => rkRel v k j) ⊆
      Finset.univ.filter (fun k => rkRel v k i) := by
    intro k hk
    simp only [Finset.mem_filter, Finset.mem_univ, true_and] at hk ⊢
    exact rkRel_trans hk h
  refine Finset.card_lt_card ((Finset.ssubset_iff_of_subset hsub).mpr ?_)
  refine ⟨j, Finset.mem_filter.mpr ⟨Finset.mem_univ j, h⟩, fun hj => ?_⟩
  exact rkRel_irrefl v j (Finset.mem_filter.mp hj).2

theorem rkRel_shift_iff (v : Fin 4 → ℚ) (l r : ℚ) (hl : 0 ≤ l) (hr : 0 ≤ r)
    (j i : Fin 4) :
    rkRel (fun k => v k + if rk v k ≤ 1 then -l else r) j i ↔ rkRel v j i := by
  have mono : ∀ a b : Fin 4, rkRel v a b →
      rkRel (fun k => v k + if rk v k ≤ 1 then -l else r) a b := by
    intro a b hab
    by_cases ha : rk v a ≤ 1 <;> by_cases hb : rk v b ≤ 1
    · rcases hab with h | ⟨h, hlt⟩
      · exact Or.inl (by simp only [ha, if_pos, hb]; linarith)
      · exact Or.inr ⟨by simp only [ha, if_pos, hb]; rw [h], hlt⟩
    · rcases hab with h | ⟨h, hlt⟩
      · exact Or.inl (by simp only [ha, if_pos, hb, if_neg, not_false_iff]; linarith)
      · have hle : v a + (if rk v a ≤ 1 then -l else r) ≤
            v b + (if rk v b ≤ 1 then -l else r) := by
          simp only [ha, if_pos, hb, if_neg, not_false_iff]
          linarith
        rcases lt_or_eq_of_le hle with hlt2 | heq
        · exact Or.inl hlt2
        · exact Or.inr ⟨heq, hlt⟩
    · exact absurd (rk_lt_of_rkRel hab) (by omega)
    · rcases hab with h | ⟨h, hlt⟩
      · exact Or.inl (by simp only [ha, hb, if_neg, not_false_iff]; linarith)
      · exact Or.inr ⟨by simp only [ha, hb, if_neg, not_false_iff]; rw [h], hlt⟩
  constructor
  · intro h
    rcases eq_or_ne j i with rfl | hne
    · exact absurd h (rkRel_irrefl _ _)
    · rcases rkRel_total hne with h1 | h1
      · exact h1
      · exact absurd (rkRel_trans h (mono _ _ h1)) (rkRel_irrefl _ _)
  · exact mono j i

theorem rk_congr {v₁ v₂ : Fin 4 → ℚ}
    (h : ∀ j i, rkRel v₁ j i ↔ rkRel v₂ j i) (i : Fin 4) : rk v₁ i = rk v₂ i := by
  unfold rk
  exact congrArg Finset.card (Finset.filter_congr fun j _ => h j i)

theorem rk_shift (v : Fin 4 → ℚ) (l r : ℚ) (hl : 0 ≤ l) (hr : 0 ≤ r) (i : Fin 4) :
    rk (fun k => v k + if rk v k ≤ 1 then -l else r) i = rk v i :=
  rk_congr (fun j i => rkRel_shift_iff v l r hl hr j i) i

theorem Quadrilateral.pad_points_get (q : Quadrilateral) (l r t b : ℚ) (i : Fin 4) :
    ((q.pad l r t b false).points.get i) =
      ⟨(q.points.get i).x + (if rk q.points.xs i ≤ 1 then -l else r),
       (q.points.get i).y + (if rk q.points.ys i ≤ 1 then -t else b)⟩ := by
  simp [Quadrilateral.pad, Points4.add, Quadrilateral.map_to_points_ordering,
    Points4.get_ofFn]

theorem Quadrilateral.pad_xs (q : Quadrilateral) (l r t b : ℚ) :
    (q.pad l r t b false).points.xs =
      fun i => q.points.xs i + (if rk q.points.xs i ≤ 1 then -l else r) := by
  funext i
  simp [Points4.xs, Quadrilateral.pad_points_get]

theorem Quadrilateral.pad_ys (q : Quadrilateral) (l r t b : ℚ) :
    (q.pad l r t b false).points.ys =
      fun i => q.points.ys i + (if rk q.points.ys i ≤ 1 then -t else b) := by
  funext i
  simp [Points4.ys, Quadrilateral.pad_points_get]

theorem Quadrilateral.pad_height' (q : Quadrilateral) (l r t b : ℚ) (s : Bool) :
    (q.pad l r t b s).height' = q.height' := rfl

theorem Quadrilateral.pad_width' (q : Quadrilateral) (l r t b : ℚ) (s : Bool) :
    (q.pad l r t b s).width' = q.width' := rfl

theorem Points4.nonneg_get {ps : Points4} (h : ps.Nonneg) (i : Fin 4) :
    0 ≤ (ps.get i).x ∧ 0 ≤ (ps.get i).y := by
  obtain ⟨h1, h2, h3, h4, h5, h6, h7, h8⟩ := h
  fin_cases i <;> exact ⟨‹_›, ‹_›⟩

theorem Mat3.mul_of_inv {M Mi : Mat3} (hI : M.inv = some Mi) :
    M.mul Mi = Mat3.idMat := by
  have hd : M.det ≠ 0 := by
    intro h
    simp [Mat3.inv, h] at hI
  rw [Mat3.inv, if_neg hd, Option.some.injEq] at hI
  subst hI
  simp only [Mat3.mul, Mat3.idMat, Mat3.mk.injEq]
  refine ⟨?_, ?_, ?_, ?_, ?_, ?_, ?_, ?_, ?_⟩ <;> field_simp <;>
    (try simp only [Mat3.det]) <;> ring

theorem Mat3.applyPt_round (M Mi : Mat3) (p : Pt) (hI : M.inv = some Mi)
    (hz : Mi.m20 * p.x + Mi.m21 * p.y + Mi.m22 ≠ 0) :
    M.applyPt (Mi.applyPt p) = p := by
  have hMMi := Mat3.mul_of_inv hI
  simp only [Mat3.mul, Mat3.idMat, Mat3.mk.injEq] at hMMi
  obtain ⟨h00, h01, h02, h10, h11, h12, h20, h21, h22⟩ := hMMi
  set w1 := Mi.m00 * p.x + Mi.m01 * p.y + Mi.m02 with hw1
  set w2 := Mi.m10 * p.x + Mi.m11 * p.y + Mi.m12 with hw2
  set w3 := Mi.m20 * p.x + Mi.m21 * p.y + Mi.m22 with hw3
  have key1 : M.m00 * w1 + M.m01 * w2 + M.m02 * w3 = p.x := by
    rw [hw1, hw2, hw3]
    linear_combination p.x * h00 + p.y * h01 + h02
  have key2 : M.m10 * w1 + M.m11 * w2 + M.m12 * w3 = p.y := by
    rw [hw1, hw2, hw3]
    linear_combination p.x * h10 + p.y * h11 + h12
  have key3 : M.m20 * w1 + M.m21 * w2 + M.m22 * w3 = 1 := by
    rw [hw1, hw2, hw3]
    linear_combination p.x * h20 + p.y * h21 + h22
  have hz2 : M.m20 * (w1 / w3) + M.m21 * (w2 / w3) + M.m22 ≠ 0 := by
    have e : M.m20 * (w1 / w3) + M.m21 * (w2 / w3) + M.m22 = 1 / w3 := by
      field_simp
      linear_combination key3
    rw [e]
    exact one_div_ne_zero hz
  apply ptExt
  · show (M.m00 * (w1 / w3) + M.m01 * (w2 / w3) + M.m02) /
        (M.m20 * (w1 / w3) + M.m21 * (w2 / w3) + M.m22) = p.x
    rw [div_eq_iff hz2]
    field_simp
    linear_combination key1 - p.x * key3
  · show (M.m10 * (w1 / w3) + M.m11 * (w2 / w3) + M.m12) /
        (M.m20 * (w1 / w3) + M.m21 * (w2 / w3) + M.m22) = p.y
    rw [div_eq_iff hz2]
    field_simp
    linear_combination key2 - p.y * key3

theorem Quadrilateral.pad_zero_id (q : Quadrilateral) (h : q.points.Nonneg) :
    q.pad 0 0 0 0 true = q := by
  refine quadExt ?_ rfl rfl
  apply Points4.ext_get
  intro i
  apply ptExt <;>
    simp [Quadrilateral.pad, Points4.add, Points4.max0,
      Quadrilateral.map_to_points_ordering, Points4.get_ofFn, neg_zero, ite_self,
      max_eq_right (Points4.nonneg_get h i).1, max_eq_right (Points4.nonneg_get h i).2]

/-! ### Theorems for the claims -/

/-- C8: `Layout.filter_by(other, ...)` returns exactly the members of the
collection for which `is_in(other, ...)` holds, in their original relative
order: it is list filtering, hence a sublist of the collection whose
members are characterised by the `is_in` test. -/
theorem c8_filter_by (L : List Geometry) (other : Geometry)
    (sm : SoftMargin) (center : Bool) :
    filter_by L other sm center = L.filter (fun e => e.is_in other sm center) ∧
    (filter_by L other sm center).Sublist L ∧
    ∀ e, e ∈ filter_by L other sm center ↔ e ∈ L ∧ e.is_in other sm center = true := by
  refine ⟨filter_by_eq_filter L other sm center, ?_, ?_⟩
  · rw [filter_by_eq_filter]
    exact List.filter_sublist L
  · intro e
    rw [filter_by_eq_filter]
    simp [List.mem_filter]

/-- C9: `Quadrilateral.__eq__` compares only the points array and the
class: two quadrilaterals with the same points are equal whatever their
logical heights and widths, and comparison with a value of another class
is `False`. -/
theorem c9_quadrilateral_eq :
    (∀ (p : Points4) (h1 w1 h2 w2 : Option ℚ),
      Geometry.pyEq (.quad ⟨p, h1, w1⟩) (.quad ⟨p, h2, w2⟩) = true) ∧
    (∀ (q : Quadrilateral) (i : Interval), Geometry.pyEq (.quad q) (.itv i) = false) ∧
    (∀ (q : Quadrilateral) (r : Rectangle), Geometry.pyEq (.quad q) (.rect r) = false) := by
  refine ⟨fun p h1 w1 h2 w2 => ?_, fun q i => rfl, fun q r => rfl⟩
  simp [Geometry.pyEq]

/-- C10: `Interval.condition_on` and `Interval.relative_to` with a
same-axis Interval other rebuild the interval through the constructor,
carrying only start, end and axis and resetting both canvas sizes to 0;
with a different-axis other they return an unchanged copy, canvas sizes
included. -/
theorem c10_interval_canvas_reset (a o : Interval) :
    (a.axis = o.axis →
      Geometry.condition_on (.itv a) (.itv o) =
        some (.itv ⟨a.start + o.start, a.end_ + o.start, a.axis, 0, 0⟩) ∧
      Geometry.relative_to (.itv a) (.itv o) =
        some (.itv ⟨a.start - o.start, a.end_ - o.start, a.axis, 0, 0⟩)) ∧
    (a.axis ≠ o.axis →
      Geometry.condition_on (.itv a) (.itv o) = some (.itv a) ∧
      Geometry.relative_to (.itv a) (.itv o) = some (.itv a)) := by
  constructor
  · intro h
    have h' : o.axis = a.axis := h.symm
    simp [Geometry.condition_on, Geometry.relative_to,
      Interval.condition_on, Interval.relative_to, h']
  · intro h
    simp [Geometry.condition_on, Geometry.relative_to,
      Interval.condition_on, Interval.relative_to, if_neg (Ne.symm h)]

/-- C10 witness: concrete same-axis and different-axis instances. -/
theorem c10_witness :
    Geometry.condition_on (.itv ⟨1, 2, .x, 5, 7⟩) (.itv ⟨3, 4, .x, 0, 0⟩) =
      some (.itv ⟨1 + 3, 2 + 3, Axis.x, 0, 0⟩) ∧
    Geometry.condition_on (.itv ⟨1, 2, .x, 5, 7⟩) (.itv ⟨3, 4, .y, 0, 0⟩) =
      some (.itv ⟨1, 2, .x, 5, 7⟩) :=
  ⟨((c10_interval_canvas_reset ⟨1, 2, .x, 5, 7⟩ ⟨3, 4, .x, 0, 0⟩).1 rfl).1,
   ((c10_interval_canvas_reset ⟨1, 2, .x, 5, 7⟩ ⟨3, 4, .y, 0, 0⟩).2 (by decide)).1⟩

/-- C6: with `safe_mode=True`, `pad` clamps only the minimum-side
coordinates at 0 — an Interval's padded start becomes `max 0 start` while
its end is never clamped, and a Rectangle's `x_1`, `y_1` become
`max 0 (...)` while `x_2`, `y_2` are never clamped; padding an Interval on
the pair of sides orthogonal to its axis contributes nothing (the result
equals the pad without those amounts, and with `safe_mode=False` the
interval is exactly unchanged). -/
theorem c6_pad_safe_mode :
    (∀ (i : Interval) (l r t b : ℚ),
      (i.pad l r t b true).start = max 0 ((i.pad l r t b false).start) ∧
      (i.pad l r t b true).end_ = (i.pad l r t b false).end_) ∧
    (∀ (re : Rectangle) (l r t b : ℚ),
      re.pad l r t b true =
        ⟨max 0 (re.x_1 - l), max 0 (re.y_1 - t), re.x_2 + r, re.y_2 + b⟩ ∧
      re.pad l r t b false = ⟨re.x_1 - l, re.y_1 - t, re.x_2 + r, re.y_2 + b⟩) ∧
    (∀ (i : Interval) (t b : ℚ) (s : Bool), i.axis = Axis.x →
      i.pad 0 0 t b s = i.pad 0 0 0 0 s ∧ i.pad 0 0 t b false = i) ∧
    (∀ (i : Interval) (l r : ℚ) (s : Bool), i.axis = Axis.y →
      i.pad l r 0 0 s = i.pad 0 0 0 0 s ∧ i.pad l r 0 0 false = i) := by
  refine ⟨fun i l r t b => ?_, fun re l r t b => ⟨rfl, rfl⟩,
    fun i t b s h => ?_, fun i l r s h => ?_⟩
  · cases hax : i.axis <;> simp [Interval.pad, hax]
  · cases i
    simp_all [Interval.pad]
  · cases i
    simp_all [Interval.pad]

/-- C6 witness: concrete instances for the two implications (an x-axis and
a y-axis interval padded on their orthogonal sides). -/
theorem c6_witness :
    (Interval.pad ⟨2, 6, .x, 0, 0⟩ 0 0 3 4 false = Interval.pad ⟨2, 6, .x, 0, 0⟩ 0 0 0 0 false ∧
     Interval.pad ⟨2, 6, .x, 0, 0⟩ 0 0 3 4 false = ⟨2, 6, .x, 0, 0⟩) ∧
    (Interval.pad ⟨2, 6, .y, 0, 0⟩ 3 4 0 0 false = Interval.pad ⟨2, 6, .y, 0, 0⟩ 0 0 0 0 false ∧
     Interval.pad ⟨2, 6, .y, 0, 0⟩ 3 4 0 0 false = ⟨2, 6, .y, 0, 0⟩) :=
  ⟨(c6_pad_safe_mode.2.2.1 ⟨2, 6, .x, 0, 0⟩ 3 4 false rfl),
   (c6_pad_safe_mode.2.2.2 ⟨2, 6, .y, 0, 0⟩ 3 4 false rfl)⟩

/-- C4 counterexample: the claim's containment equivalence fails for a
container interval with negative start, because the empty soft margin
still pads the container with the default `safe_mode=True`, clamping its
start at 0: here `b.start ≤ a.start ≤ a.end ≤ b.end` holds yet `is_in` is
`False`. -/
theorem c4_counterexample :
    Geometry.is_in (.itv ⟨-5, -1, .x, 0, 0⟩) (.itv ⟨-10, 0, .x, 0, 0⟩)
      emptySM false = false ∧
    ((-10 : ℚ) ≤ -5 ∧ (-5 : ℚ) ≤ -1 ∧ (-1 : ℚ) ≤ 0) := by
  with_unfolding_all decide

/-- C4 (amended): for Intervals `a`, `b` with an empty soft margin, if the
axes differ `a.is_in(b)` is `False`; if the axes agree the non-center test
is `max(0, b.start) ≤ a.start ≤ a.end ≤ b.end` and the center test is
`max(0, b.start) ≤ (a.start+a.end)/2 ≤ b.end` — the clamp coming from the
`safe_mode=True` default of the soft-margin pad applied to `b`; the
particular example `Interval(5,15,x).is_in(Interval(0,10,x))` is `False`
but is `True` with `center=True`. -/
theorem c4_interval_is_in (a b : Interval) :
    (a.axis ≠ b.axis →
      ∀ center, Geometry.is_in (.itv a) (.itv b) emptySM center = false) ∧
    (a.axis = b.axis →
      (Geometry.is_in (.itv a) (.itv b) emptySM false = true ↔
        max 0 b.start ≤ a.start ∧ a.start ≤ a.end_ ∧ a.end_ ≤ b.end_) ∧
      (Geometry.is_in (.itv a) (.itv b) emptySM true = true ↔
        max 0 b.start ≤ (a.start + a.end_) / 2 ∧ (a.start + a.end_) / 2 ≤ b.end_)) ∧
    Geometry.is_in (.itv ⟨5, 15, .x, 0, 0⟩) (.itv ⟨0, 10, .x, 0, 0⟩)
      emptySM false = false ∧
    Geometry.is_in (.itv ⟨5, 15, .x, 0, 0⟩) (.itv ⟨0, 10, .x, 0, 0⟩)
      emptySM true = true := by
  refine ⟨fun h center => ?_, fun h => ⟨?_, ?_⟩, by with_unfolding_all decide,
    by with_unfolding_all decide⟩
  · simp [Geometry.is_in, Geometry.pad, emptySM, Interval.pad_empty_margin,
      Interval.is_in_padded, h]
  · simp [Geometry.is_in, Geometry.pad, emptySM, Interval.pad_empty_margin,
      Interval.is_in_padded, h]
  · simp [Geometry.is_in, Geometry.pad, emptySM, Interval.pad_empty_margin,
      Interval.is_in_padded, h, Interval.center]

/-- C4 witness: concrete instances discharging both implications. -/
theorem c4_witness :
    Geometry.is_in (.itv ⟨1, 2, .x, 0, 0⟩) (.itv ⟨0, 3, .y, 0, 0⟩)
      emptySM false = false ∧
    (Geometry.is_in (.itv ⟨1, 2, .x, 0, 0⟩) (.itv ⟨0, 3, .x, 0, 0⟩)
      emptySM false = true ↔
      max 0 (0 : ℚ) ≤ 1 ∧ (1 : ℚ) ≤ 2 ∧ (2 : ℚ) ≤ 3) :=
  ⟨(c4_interval_is_in ⟨1, 2, .x, 0, 0⟩ ⟨0, 3, .y, 0, 0⟩).1 (by decide) false,
   ((c4_interval_is_in ⟨1, 2, .x, 0, 0⟩ ⟨0, 3, .x, 0, 0⟩).2.1 rfl).1⟩

/-- C1 counterexample: for an Interval with non-zero canvas sizes and a
same-axis Interval other, the round trip
`g.condition_on(other).relative_to(other)` returns the interval with both
canvas sizes reset to 0, which is not equal to `g`. -/
theorem c1_counterexample :
    roundTrip (.itv ⟨1, 2, .x, 5, 7⟩) (.itv ⟨3, 4, .x, 0, 0⟩) =
      some (.itv ⟨1, 2, .x, 0, 0⟩) ∧
    Geometry.pyEq (.itv ⟨1, 2, .x, 0, 0⟩) (.itv ⟨1, 2, .x, 5, 7⟩) = false ∧
    roundTrip (.itv ⟨1, 2, .x, 5, 7⟩) (.itv ⟨3, 4, .x, 0, 0⟩) ≠
      some (.itv ⟨1, 2, .x, 5, 7⟩) := by
  with_unfolding_all decide

/-- C1 (amended): the `condition_on` / `relative_to` round trip is the
identity in every pure-translation case — Rectangle or Quadrilateral `g`
with Interval or Rectangle `other`, and Interval `g` with Interval
`other` — except that a same-axis Interval pair preserves start, end and
axis but resets both canvas sizes to 0, so there the round trip equals `g`
exactly when `g`'s canvas sizes are already 0; when the round trip
changes the class of `g` (Interval `g` with Rectangle or Quadrilateral
`other`, Rectangle `g` with Quadrilateral `other`) the result is never
equal to `g`; and for Quadrilateral `g` with Quadrilateral `other` —
whenever `other`'s perspective matrix exists and is invertible and no
point of `g` has a vanishing homogeneous component under the inverse —
the round trip returns a Quadrilateral with exactly `g`'s points (and
`g`'s computed height and width), which is equal to `g` under the
source's points-only Quadrilateral equality. -/
theorem c1_round_trip :
    (∀ a o : Interval, a.axis = o.axis →
      roundTrip (.itv a) (.itv o) = some (.itv ⟨a.start, a.end_, a.axis, 0, 0⟩) ∧
      (roundTrip (.itv a) (.itv o) = some (.itv a) ↔
        a.canvas_height = 0 ∧ a.canvas_width = 0)) ∧
    (∀ a o : Interval, a.axis ≠ o.axis →
      roundTrip (.itv a) (.itv o) = some (.itv a)) ∧
    (∀ (r : Rectangle) (o : Interval),
      roundTrip (.rect r) (.itv o) = some (.rect r)) ∧
    (∀ r o : Rectangle, roundTrip (.rect r) (.rect o) = some (.rect r)) ∧
    (∀ (q : Quadrilateral) (o : Interval),
      roundTrip (.quad q) (.itv o) = some (.quad q)) ∧
    (∀ (q : Quadrilateral) (o : Rectangle),
      roundTrip (.quad q) (.rect o) = some (.quad q)) ∧
    (∀ (a : Interval) (o : Rectangle) (g : Geometry),
      roundTrip (.itv a) (.rect o) = some g → g.pyEq (.itv a) = false) ∧
    (∀ (a : Interval) (o : Quadrilateral) (g : Geometry),
      roundTrip (.itv a) (.quad o) = some g → g.pyEq (.itv a) = false) ∧
    (∀ (r : Rectangle) (o : Quadrilateral) (g : Geometry),
      roundTrip (.rect r) (.quad o) = some g → g.pyEq (.rect r) = false) ∧
    (∀ (g o : Quadrilateral) (M Mi : Mat3),
      o.perspective_matrix = some M → M.inv = some Mi →
      (∀ i : Fin 4,
        Mi.m20 * (g.points.get i).x + Mi.m21 * (g.points.get i).y + Mi.m22 ≠ 0) →
      roundTrip (.quad g) (.quad o) =
        some (.quad ⟨g.points, some g.height, some g.width⟩) ∧
      Geometry.pyEq (.quad ⟨g.points, some g.height, some g.width⟩)
        (.quad g) = true) := by
  refine ⟨fun a o h => ?_, fun a o h => ?_, fun r o => ?_, fun r o => ?_,
    fun q o => ?_, fun q o => ?_, fun a o g hg => ?_, fun a o g hg => ?_,
    fun r o g hg => ?_, fun g o M Mi hM hI hz => ⟨?_, by simp [Geometry.pyEq]⟩⟩
  · have h' : o.axis = a.axis := h.symm
    constructor
    · simp [roundTrip, Geometry.condition_on, Geometry.relative_to,
        Interval.condition_on, Interval.relative_to, h']
    · simp only [roundTrip, Geometry.condition_on, Geometry.relative_to,
        Interval.condition_on, Interval.relative_to, h', if_pos,
        Option.some_bind, Option.some.injEq, Geometry.itv.injEq]
      constructor
      · intro he
        rw [← he]
        exact ⟨rfl, rfl⟩
      · intro ⟨hh, hw⟩
        cases a
        simp_all
  · simp [roundTrip, Geometry.condition_on, Geometry.relative_to,
      Interval.condition_on, Interval.relative_to, if_neg (Ne.symm h)]
  · cases r
    cases ho : o.axis <;>
      simp [roundTrip, Geometry.condition_on, Geometry.relative_to,
        Rectangle.condition_on, Rectangle.relative_to, ho]
  · cases r
    simp [roundTrip, Geometry.condition_on, Geometry.relative_to,
      Rectangle.condition_on, Rectangle.relative_to]
  · cases q with
    | mk pts hh ww =>
      cases ho : o.axis <;>
        simp [roundTrip, Geometry.condition_on, Geometry.relative_to,
          Quadrilateral.condition_on, Quadrilateral.relative_to,
          Quadrilateral.shift, ho] <;>
        (apply Points4.ext_get
         intro i
         apply ptExt <;> simp [Points4.translate_get])
  · cases q with
    | mk pts hh ww =>
      simp [roundTrip, Geometry.condition_on, Geometry.relative_to,
        Quadrilateral.condition_on, Quadrilateral.relative_to,
        Quadrilateral.shift]
      apply Points4.ext_get
      intro i
      apply ptExt <;> simp [Points4.translate_get]
  · cases ha : a.axis <;>
      simp only [roundTrip, Geometry.condition_on, Interval.condition_on,
        Interval.put_on_canvas, Interval.to_rectangle, Interval.coordinates, ha,
        Rectangle.condition_on, Option.some_bind, Geometry.relative_to,
        Rectangle.relative_to] at hg <;>
      (rw [Option.some.injEq] at hg
       subst hg
       rfl)
  · simp only [roundTrip, Geometry.condition_on, Interval.condition_on] at hg
    rcases hM : Quadrilateral.perspective_matrix o with _ | M
    · simp [Quadrilateral.condition_on, hM] at hg
    · rcases hI : M.inv with _ | Mi
      · simp [Quadrilateral.condition_on, hM, perspective_transformation, hI] at hg
      · simp [Quadrilateral.condition_on, hM, perspective_transformation, hI,
          Geometry.relative_to, Quadrilateral.relative_to] at hg
        subst hg
        rfl
  · simp only [roundTrip, Geometry.condition_on] at hg
    rcases hM : Quadrilateral.perspective_matrix o with _ | M
    · simp [Rectangle.condition_on, hM] at hg
    · rcases hI : M.inv with _ | Mi
      · simp [Rectangle.condition_on, hM, perspective_transformation, hI] at hg
      · simp [Rectangle.condition_on, hM, perspective_transformation, hI,
          Geometry.relative_to, Quadrilateral.relative_to] at hg
        subst hg
        rfl
  · have e0 := Mat3.applyPt_round M Mi g.points.p0 hI (hz 0)
    have e1 := Mat3.applyPt_round M Mi g.points.p1 hI (hz 1)
    have e2 := Mat3.applyPt_round M Mi g.points.p2 hI (hz 2)
    have e3 := Mat3.applyPt_round M Mi g.points.p3 hI (hz 3)
    simp [roundTrip, Geometry.condition_on, Quadrilateral.condition_on, hM,
      perspective_transformation, hI, Geometry.relative_to,
      Quadrilateral.relative_to, Quadrilateral.height, Quadrilateral.width,
      e0, e1, e2, e3]

/-- C1 witness: concrete instances discharging the hypotheses of each
part (same-axis and different-axis Interval pairs, and computed round
trips for the class-changing cases). -/
theorem c1_witness :
    roundTrip (.itv ⟨1, 2, .x, 5, 7⟩) (.itv ⟨3, 4, .x, 0, 0⟩) =
      some (.itv ⟨1, 2, .x, 0, 0⟩) ∧
    roundTrip (.itv ⟨1, 2, .x, 5, 7⟩) (.itv ⟨3, 4, .y, 0, 0⟩) =
      some (.itv ⟨1, 2, .x, 5, 7⟩) ∧
    Geometry.pyEq (.rect ⟨1, 0, 2, 5⟩) (.itv ⟨1, 2, .x, 5, 7⟩) = false ∧
    Geometry.pyEq (.quad ⟨⟨⟨1, 0⟩, ⟨2, 0⟩, ⟨2, 2⟩, ⟨1, 2⟩⟩, some 2, some 1⟩)
      (.itv ⟨1, 2, .x, 5, 7⟩) = false ∧
    Geometry.pyEq (.quad ⟨⟨⟨1, 2⟩, ⟨3, 2⟩, ⟨3, 4⟩, ⟨1, 4⟩⟩, some 2, some 2⟩)
      (.rect ⟨1, 2, 3, 4⟩) = false ∧
    roundTrip (.quad ⟨⟨⟨1, 1⟩, ⟨3, 1⟩, ⟨3, 2⟩, ⟨1, 2⟩⟩, none, none⟩)
        (.quad ⟨⟨⟨0, 0⟩, ⟨2, 0⟩, ⟨2, 2⟩, ⟨0, 2⟩⟩, none, none⟩) =
      some (.quad ⟨⟨⟨1, 1⟩, ⟨3, 1⟩, ⟨3, 2⟩, ⟨1, 2⟩⟩, some 1, some 2⟩) :=
  ⟨(c1_round_trip.1 ⟨1, 2, .x, 5, 7⟩ ⟨3, 4, .x, 0, 0⟩ rfl).1,
   c1_round_trip.2.1 ⟨1, 2, .x, 5, 7⟩ ⟨3, 4, .y, 0, 0⟩ (by decide),
   c1_round_trip.2.2.2.2.2.2.1 ⟨1, 2, .x, 5, 7⟩ ⟨3, 4, 10, 9⟩
     (.rect ⟨1, 0, 2, 5⟩) (by with_unfolding_all decide),
   c1_round_trip.2.2.2.2.2.2.2.1 ⟨1, 2, .x, 5, 7⟩
     ⟨⟨⟨0, 0⟩, ⟨2, 0⟩, ⟨2, 2⟩, ⟨0, 2⟩⟩, none, none⟩
     (.quad ⟨⟨⟨1, 0⟩, ⟨2, 0⟩, ⟨2, 2⟩, ⟨1, 2⟩⟩, some 2, some 1⟩)
     (by with_unfolding_all decide),
   c1_round_trip.2.2.2.2.2.2.2.2.1 ⟨1, 2, 3, 4⟩
     ⟨⟨⟨0, 0⟩, ⟨2, 0⟩, ⟨2, 2⟩, ⟨0, 2⟩⟩, none, none⟩
     (.quad ⟨⟨⟨1, 2⟩, ⟨3, 2⟩, ⟨3, 4⟩, ⟨1, 4⟩⟩, some 2, some 2⟩)
     (by with_unfolding_all decide),
   ((c1_round_trip.2.2.2.2.2.2.2.2.2
       ⟨⟨⟨1, 1⟩, ⟨3, 1⟩, ⟨3, 2⟩, ⟨1, 2⟩⟩, none, none⟩
       ⟨⟨⟨0, 0⟩, ⟨2, 0⟩, ⟨2, 2⟩, ⟨0, 2⟩⟩, none, none⟩
       ⟨1, 0, 0, 0, 1, 0, 0, 0, 1⟩ ⟨1, 0, 0, 0, 1, 0, 0, 0, 1⟩
       (by with_unfolding_all decide) (by with_unfolding_all decide)
       (by with_unfolding_all decide)).1).trans (by with_unfolding_all decide)⟩

/-- C2: `_vertice_in_polygon` holds exactly when, after shifting the
polygon so the vertex is the origin, all four cyclic 2x2 determinants of
consecutive shifted points are nonnegative; for a convex polygon listed
clockwise (screen coordinates, y pointing down) this is exactly the
half-plane membership test for the point being inside or on the polygon —
in particular, on a nondegenerate axis-aligned rectangle it is exactly
membership in the box; and `Rectangle.is_in` with a Quadrilateral other
(empty soft margin, whose implicit pad leaves a polygon with nonnegative
coordinates unchanged) applies the kernel test to all four corner points
when `center=False` and to the single center point when `center=True`. -/
theorem c2_point_in_polygon :
    (∀ (v : Pt) (poly : Points4),
      vertice_in_polygon v poly = true ↔
        (0 ≤ det2 (ptSub poly.p0 v) (ptSub poly.p1 v) ∧
         0 ≤ det2 (ptSub poly.p1 v) (ptSub poly.p2 v) ∧
         0 ≤ det2 (ptSub poly.p2 v) (ptSub poly.p3 v) ∧
         0 ≤ det2 (ptSub poly.p3 v) (ptSub poly.p0 v))) ∧
    (∀ (v : Pt) (poly : Points4), clockwise_convex poly →
      (vertice_in_polygon v poly = true ↔ inside_or_on v poly)) ∧
    (∀ (x_1 y_1 x_2 y_2 : ℚ) (v : Pt), x_1 < x_2 → y_1 < y_2 →
      (vertice_in_polygon v (cvt_coordinates_to_points x_1 y_1 x_2 y_2) = true ↔
        (x_1 ≤ v.x ∧ v.x ≤ x_2 ∧ y_1 ≤ v.y ∧ v.y ≤ y_2))) ∧
    (∀ (r : Rectangle) (q : Quadrilateral), q.points.Nonneg →
      Geometry.is_in (.rect r) (.quad q) emptySM false =
        (vertice_in_polygon ⟨r.x_1, r.y_1⟩ q.points &&
         vertice_in_polygon ⟨r.x_2, r.y_1⟩ q.points &&
         vertice_in_polygon ⟨r.x_2, r.y_2⟩ q.points &&
         vertice_in_polygon ⟨r.x_1, r.y_2⟩ q.points) ∧
      Geometry.is_in (.rect r) (.quad q) emptySM true =
        vertice_in_polygon ⟨r.centerX, r.centerY⟩ q.points) := by
  have key : ∀ a b v : Pt,
      det2 (ptSub a v) (ptSub b v) = det2 (ptSub b a) (ptSub v a) := by
    intro a b v
    simp only [det2, ptSub]
    ring
  refine ⟨fun v poly => ?_, fun v poly hcw => ?_, fun x_1 y_1 x_2 y_2 v hx hy => ?_,
    fun r q h => ⟨?_, ?_⟩⟩
  · simp [vertice_in_polygon, Bool.and_eq_true, decide_eq_true_eq, and_assoc]
  · simp only [vertice_in_polygon, Bool.and_eq_true, decide_eq_true_eq, and_assoc,
      inside_or_on, halfplane]
    rw [key poly.p0 poly.p1 v, key poly.p1 poly.p2 v, key poly.p2 poly.p3 v,
      key poly.p3 poly.p0 v]
  · have hx' : (0 : ℚ) < x_2 - x_1 := by linarith
    have hy' : (0 : ℚ) < y_2 - y_1 := by linarith
    have e1 : det2 (ptSub ⟨x_1, y_1⟩ v) (ptSub ⟨x_2, y_1⟩ v) =
        (v.y - y_1) * (x_2 - x_1) := by
      simp only [det2, ptSub]
      ring
    have e2 : det2 (ptSub ⟨x_2, y_1⟩ v) (ptSub ⟨x_2, y_2⟩ v) =
        (x_2 - v.x) * (y_2 - y_1) := by
      simp only [det2, ptSub]
      ring
    have e3 : det2 (ptSub ⟨x_2, y_2⟩ v) (ptSub ⟨x_1, y_2⟩ v) =
        (y_2 - v.y) * (x_2 - x_1) := by
      simp only [det2, ptSub]
      ring
    have e4 : det2 (ptSub ⟨x_1, y_2⟩ v) (ptSub ⟨x_1, y_1⟩ v) =
        (v.x - x_1) * (y_2 - y_1) := by
      simp only [det2, ptSub]
      ring
    simp only [vertice_in_polygon, cvt_coordinates_to_points, Bool.and_eq_true,
      decide_eq_true_eq, and_assoc]
    rw [e1, e2, e3, e4, mul_nonneg_iff_of_pos_right hx',
      mul_nonneg_iff_of_pos_right hy', mul_nonneg_iff_of_pos_right hx',
      mul_nonneg_iff_of_pos_right hy']
    constructor <;> rintro ⟨h1, h2, h3, h4⟩ <;>
      exact ⟨by linarith, by linarith, by linarith, by linarith⟩
  · simp [Geometry.is_in, Geometry.pad, emptySM, Quadrilateral.pad_zero_id q h,
      Rectangle.is_in_padded, Rectangle.points, cvt_coordinates_to_points]
  · simp [Geometry.is_in, Geometry.pad, emptySM, Quadrilateral.pad_zero_id q h,
      Rectangle.is_in_padded]

/-- C2 witness: the kernel test on a concrete clockwise convex square
agrees with half-plane membership, the box characterisation holds on a
concrete nondegenerate rectangle, and the `is_in` dispatch holds for a
concrete rectangle inside a concrete nonnegative quadrilateral. -/
theorem c2_witness :
    (vertice_in_polygon ⟨5, 5⟩ ⟨⟨0, 0⟩, ⟨10, 0⟩, ⟨10, 10⟩, ⟨0, 10⟩⟩ = true ↔
      inside_or_on ⟨5, 5⟩ ⟨⟨0, 0⟩, ⟨10, 0⟩, ⟨10, 10⟩, ⟨0, 10⟩⟩) ∧
    (vertice_in_polygon ⟨5, 5⟩ (cvt_coordinates_to_points 0 0 10 10) = true ↔
      ((0 : ℚ) ≤ 5 ∧ (5 : ℚ) ≤ 10 ∧ (0 : ℚ) ≤ 5 ∧ (5 : ℚ) ≤ 10)) ∧
    Geometry.is_in (.rect ⟨2, 2, 3, 3⟩)
      (.quad ⟨⟨⟨0, 0⟩, ⟨10, 0⟩, ⟨10, 10⟩, ⟨0, 10⟩⟩, none, none⟩) emptySM false =
      (vertice_in_polygon ⟨2, 2⟩ ⟨⟨0, 0⟩, ⟨10, 0⟩, ⟨10, 10⟩, ⟨0, 10⟩⟩ &&
       vertice_in_polygon ⟨3, 2⟩ ⟨⟨0, 0⟩, ⟨10, 0⟩, ⟨10, 10⟩, ⟨0, 10⟩⟩ &&
       vertice_in_polygon ⟨3, 3⟩ ⟨⟨0, 0⟩, ⟨10, 0⟩, ⟨10, 10⟩, ⟨0, 10⟩⟩ &&
       vertice_in_polygon ⟨2, 3⟩ ⟨⟨0, 0⟩, ⟨10, 0⟩, ⟨10, 10⟩, ⟨0, 10⟩⟩) :=
  ⟨c2_point_in_polygon.2.1 ⟨5, 5⟩ ⟨⟨0, 0⟩, ⟨10, 0⟩, ⟨10, 10⟩, ⟨0, 10⟩⟩
     (by with_unfolding_all decide),
   c2_point_in_polygon.2.2.1 0 0 10 10 ⟨5, 5⟩ (by decide) (by decide),
   (c2_point_in_polygon.2.2.2 ⟨2, 2, 3, 3⟩
     ⟨⟨⟨0, 0⟩, ⟨10, 0⟩, ⟨10, 10⟩, ⟨0, 10⟩⟩, none, none⟩ (by decide)).1⟩

/-- C3: `Rectangle.condition_on` and `Rectangle.relative_to` with a
Quadrilateral other return a Quadrilateral (never a Rectangle) whose
points are the rectangle's four corners mapped through the other's
perspective matrix — the inverse matrix for `condition_on`, the forward
matrix for `relative_to`, each applied in homogeneous coordinates with
division by the homogeneous component — and whose logical height and
width are the rectangle's height and width. -/
theorem c3_rectangle_perspective (r : Rectangle) (q : Quadrilateral) :
    Geometry.condition_on (.rect r) (.quad q) =
      (q.perspective_matrix.bind Mat3.inv).map (fun Mi =>
        .quad ⟨⟨Mi.applyPt ⟨r.x_1, r.y_1⟩, Mi.applyPt ⟨r.x_2, r.y_1⟩,
               Mi.applyPt ⟨r.x_2, r.y_2⟩, Mi.applyPt ⟨r.x_1, r.y_2⟩⟩,
              some r.height, some r.width⟩) ∧
    Geometry.relative_to (.rect r) (.quad q) =
      q.perspective_matrix.map (fun M =>
        .quad ⟨⟨M.applyPt ⟨r.x_1, r.y_1⟩, M.applyPt ⟨r.x_2, r.y_1⟩,
               M.applyPt ⟨r.x_2, r.y_2⟩, M.applyPt ⟨r.x_1, r.y_2⟩⟩,
              some r.height, some r.width⟩) ∧
    (∀ (M : Mat3) (p : Pt),
      M.applyPt p =
        ⟨(M.m00 * p.x + M.m01 * p.y + M.m02) / (M.m20 * p.x + M.m21 * p.y + M.m22),
         (M.m10 * p.x + M.m11 * p.y + M.m12) / (M.m20 * p.x + M.m21 * p.y + M.m22)⟩) ∧
    (∀ ps : Points4,
      (Quadrilateral.mk ps (some r.height) (some r.width)).height = r.height ∧
      (Quadrilateral.mk ps (some r.height) (some r.width)).width = r.width) := by
  refine ⟨?_, ?_, fun M p => rfl, fun ps => ⟨rfl, rfl⟩⟩
  · rcases hM : q.perspective_matrix with _ | M
    · simp [Geometry.condition_on, Rectangle.condition_on, hM]
    · rcases hI : M.inv with _ | Mi
      · simp [Geometry.condition_on, Rectangle.condition_on, hM,
          perspective_transformation, hI]
      · simp [Geometry.condition_on, Rectangle.condition_on, hM,
          perspective_transformation, hI, Rectangle.points,
          cvt_coordinates_to_points]
  · rcases hM : q.perspective_matrix with _ | M
    · simp [Geometry.relative_to, Rectangle.relative_to, hM]
    · simp [Geometry.relative_to, Rectangle.relative_to, hM,
        perspective_transformation, Rectangle.points, cvt_coordinates_to_points]

/-- C5 counterexample: the `pad` round trip fails on a Quadrilateral for a
negative padding amount with `safe_mode=False` (so no clamping occurs):
the inward pad reorders the rank-based vertex ordering, so the second pad
assigns its deltas to different vertices and the points do not return to
the original — even under the tolerant points-only equality. -/
theorem c5_counterexample :
    Quadrilateral.pad
        (Quadrilateral.pad ⟨⟨⟨0, 0⟩, ⟨10, 0⟩, ⟨10, 10⟩, ⟨0, 10⟩⟩, none, none⟩
          (-12) 0 0 0 false) 12 0 0 0 false ≠
      ⟨⟨⟨0, 0⟩, ⟨10, 0⟩, ⟨10, 10⟩, ⟨0, 10⟩⟩, none, none⟩ ∧
    Geometry.pyEq
      (.quad (Quadrilateral.pad
        (Quadrilateral.pad ⟨⟨⟨0, 0⟩, ⟨10, 0⟩, ⟨10, 10⟩, ⟨0, 10⟩⟩, none, none⟩
          (-12) 0 0 0 false) 12 0 0 0 false))
      (.quad ⟨⟨⟨0, 0⟩, ⟨10, 0⟩, ⟨10, 10⟩, ⟨0, 10⟩⟩, none, none⟩) = false := by
  with_unfolding_all decide

/-- C5 (amended): with `safe_mode=False`,
`pad(l,r,t,b)` then `pad(-l,-r,-t,-b)` is the identity on every Interval
and Rectangle for all padding amounts, and on every Quadrilateral for
nonnegative padding amounts (outward padding preserves the rank-based
vertex ordering; inward padding can reorder it, see the counterexample). -/
theorem c5_pad_round_trip :
    (∀ (i : Interval) (l r t b : ℚ),
      (i.pad l r t b false).pad (-l) (-r) (-t) (-b) false = i) ∧
    (∀ (re : Rectangle) (l r t b : ℚ),
      (re.pad l r t b false).pad (-l) (-r) (-t) (-b) false = re) ∧
    (∀ (q : Quadrilateral) (l r t b : ℚ), 0 ≤ l → 0 ≤ r → 0 ≤ t → 0 ≤ b →
      (q.pad l r t b false).pad (-l) (-r) (-t) (-b) false = q) := by
  refine ⟨fun i l r t b => ?_, fun re l r t b => ?_,
    fun q l r t b hl hr ht hb => ?_⟩
  · cases i with
    | mk s e ax ch cw =>
      cases ax <;> simp [Interval.pad]
  · cases re with
    | mk a b' c d =>
      simp [Rectangle.pad]
  · refine quadExt ?_ (by rw [Quadrilateral.pad_height', Quadrilateral.pad_height'])
      (by rw [Quadrilateral.pad_width', Quadrilateral.pad_width'])
    apply Points4.ext_get
    intro i
    apply ptExt
    · rw [Quadrilateral.pad_points_get]
      dsimp only
      rw [Quadrilateral.pad_xs, rk_shift q.points.xs l r hl hr i,
        Quadrilateral.pad_points_get]
      dsimp only
      by_cases hc : rk q.points.xs i ≤ 1 <;> simp [hc, Points4.xs]
    · rw [Quadrilateral.pad_points_get]
      dsimp only
      rw [Quadrilateral.pad_ys, rk_shift q.points.ys t b ht hb i,
        Quadrilateral.pad_points_get]
      dsimp only
      by_cases hc : rk q.points.ys i ≤ 1 <;> simp [hc, Points4.ys]

/-- C5 witness: a concrete nonnegative-padding round trip on a skewed
quadrilateral. -/
theorem c5_witness :
    Quadrilateral.pad
        (Quadrilateral.pad ⟨⟨⟨0, 0⟩, ⟨4, 1⟩, ⟨4, 3⟩, ⟨0, 2⟩⟩, none, none⟩
          3 4 5 6 false) (-3) (-4) (-5) (-6) false =
      ⟨⟨⟨0, 0⟩, ⟨4, 1⟩, ⟨4, 3⟩, ⟨0, 2⟩⟩, none, none⟩ :=
  c5_pad_round_trip.2.2 ⟨⟨⟨0, 0⟩, ⟨4, 1⟩, ⟨4, 3⟩, ⟨0, 2⟩⟩, none, none⟩ 3 4 5 6
    (by decide) (by decide) (by decide) (by decide)

/-- C7: `shift` and `scale` on Rectangle and Quadrilateral fail exactly
when an iterable argument does not have exactly 2 entries, and otherwise
apply the x entry to x coordinates and the y entry to y coordinates;
`shift` and `scale` on an Interval with a 2-entry vector always succeed,
using only the entry matching the interval's axis (index 0 for x,
index 1 for y). -/
theorem c7_shift_scale_validation :
    (∀ (re : Rectangle) (l : List ℚ),
      re.shift (.vec l) = none ↔ l.length ≠ 2) ∧
    (∀ (re : Rectangle) (dx dy : ℚ),
      re.shift (.vec [dx, dy]) =
        some ⟨re.x_1 + dx, re.y_1 + dy, re.x_2 + dx, re.y_2 + dy⟩) ∧
    (∀ (re : Rectangle) (l : List ℚ),
      re.scale (.vec l) = none ↔ l.length ≠ 2) ∧
    (∀ (re : Rectangle) (sx sy : ℚ),
      re.scale (.vec [sx, sy]) =
        some ⟨re.x_1 * sx, re.y_1 * sy, re.x_2 * sx, re.y_2 * sy⟩) ∧
    (∀ (q : Quadrilateral) (l : List ℚ),
      q.shift (.vec l) = none ↔ l.length ≠ 2) ∧
    (∀ (q : Quadrilateral) (dx dy : ℚ),
      q.shift (.vec [dx, dy]) = some { q with points := q.points.translate dx dy }) ∧
    (∀ (q : Quadrilateral) (l : List ℚ),
      q.scale (.vec l) = none ↔ l.length ≠ 2) ∧
    (∀ (q : Quadrilateral) (sx sy : ℚ),
      q.scale (.vec [sx, sy]) = some { q with points := q.points.scaleBy sx sy }) ∧
    (∀ (i : Interval) (dx dy : ℚ),
      i.shift (.vec [dx, dy]) =
        some { i with start := i.start + (if i.axis = Axis.x then dx else dy),
                      end_ := i.end_ + (if i.axis = Axis.x then dx else dy) }) ∧
    (∀ (i : Interval) (sx sy : ℚ),
      i.scale (.vec [sx, sy]) =
        some { i with start := i.start * (if i.axis = Axis.x then sx else sy),
                      end_ := i.end_ * (if i.axis = Axis.x then sx else sy) }) := by
  refine ⟨fun re l => ?_, fun re dx dy => rfl, fun re l => ?_, fun re sx sy => rfl,
    fun q l => ?_, fun q dx dy => rfl, fun q l => ?_, fun q sx sy => rfl,
    fun i dx dy => ?_, fun i sx sy => ?_⟩ <;>
    first
    | (rcases l with _ | ⟨a, _ | ⟨b, _ | ⟨c, tl⟩⟩⟩ <;>
        simp [Rectangle.shift, Rectangle.scale, Quadrilateral.shift, Quadrilateral.scale])
    | (cases hax : i.axis <;> simp [Interval.shift, Interval.scale, hax])

end LP
